import Mathlib

/-!
Shallow embedding of `playground/engine.py` (3dgrut playground renderer) and
proofs about it.  Images and buffers are modelled as lists of rationals
(`Image` is a batch of per-pixel rows); external collaborators (the native
tracer, denoiser, ray generators, torch's elementwise `pow`) are explicit
function parameters gathered in an `Ext` record.  Machine integers are `Nat`
(Python ints are arbitrary precision).
-/

namespace Playground

/-- A rendered image: a batch of per-pixel value rows (batch x pixels).
Colour channels are collapsed to one rational per pixel; every operation the
engine performs on them is elementwise.  Elementwise binary operations pair
entries up to the common length. -/
abbrev Image := List (List ℚ)

/-- Elementwise binary operation on two images (zip over batch and pixels). -/
def imap2 (f : ℚ → ℚ → ℚ) (a b : Image) : Image :=
  List.zipWith (List.zipWith f) a b

/-- Elementwise unary operation on an image. -/
def imap (f : ℚ → ℚ) (a : Image) : Image :=
  a.map (fun row => row.map f)

/-- Pointwise sum over the batch axis of an image (`tensor.sum(dim=0)`). -/
def batchSum : Image → List ℚ
  | [] => []
  | [r] => r
  | r :: rs => List.zipWith (· + ·) r (batchSum rs)

/-- Pointwise mean over the batch axis of an image (`tensor.mean(dim=0)`). -/
def batchMean (img : Image) : List ℚ :=
  (batchSum img).map (fun x => x / (img.length : ℚ))

/-- One masked pixel row: entries where the mask bit is set are forced to 0
(`tensor[mask] = 0.0`). -/
def maskRow (m : List Bool) (row : List ℚ) : List ℚ :=
  List.zipWith (fun b x => if b then 0 else x) m row

/-- Apply a pixel mask to every batch row of an image; models
`rb[...][rays.mask[None, :, :, 0]] = 0.0` (the mask broadcasts over batch). -/
def maskApplyI (m : List Bool) (img : Image) : Image :=
  img.map (maskRow m)

/-!  ## Frame counter (`Engine3DGRUT._render_playground_hybrid`, line 600)

`self.frame_id = self.frame_id + self.spp.batch_size if self.frame_id <= (2 ** 31 - 1) else 0`
-/

/-- Frame-id advancement performed after every hybrid trace call. -/
def advanceFrameId (frameId batchSize : ℕ) : ℕ :=
  if frameId ≤ 2 ^ 31 - 1 then frameId + batchSize else 0

/-!  ## Gamma-correct accumulation (`Engine3DGRUT._accumulate_to_buffer`)

Real-valued model of the accumulation rule, with `torch.pow` as real
exponentiation (`Real.rpow`). -/

/-- The gamma-correct running mean of `_accumulate_to_buffer`:
raise the previous buffer to `gamma`, mix in the new contribution weighted by
the accumulated count, divide by the new total weight, take the `1/gamma`
root. -/
noncomputable def accumulate_to_buffer (prevFrames newFrame : ℝ)
    (numFramesAccumulated gamma batchSize : ℝ) : ℝ :=
  let prev := prevFrames ^ gamma
  let buffer := (prev * numFramesAccumulated + newFrame) / (numFramesAccumulated + batchSize)
  buffer ^ (1 / gamma)

/-- Rational/image version of `_accumulate_to_buffer` used inside the
render-pass embedding; `qpow` is the external elementwise `torch.pow`. -/
def accumulateToBufferI (qpow : ℚ → ℚ → ℚ) (prevFrames newFrame : Image)
    (numFramesAccumulated gamma batchSize : ℚ) : Image :=
  let prev := imap (fun x => qpow x gamma) prevFrames
  let buffer := imap2 (fun p n => (p * numFramesAccumulated + n) / (numFramesAccumulated + batchSize))
    prev newFrame
  imap (fun x => qpow x (1 / gamma)) buffer

/-!  ## Scene scaling heuristic (`Primitives.set_mesh_scale_to_scene`) -/

/-- `Primitives.SCALE_OF_NEW_MESH_TO_SMALL_SCENE`. -/
def SCALE_OF_NEW_MESH_TO_SMALL_SCENE : ℚ := 1 / 2

/-- Largest of the three components of a vector (`tensor.max()` on a
3-vector). -/
def max3 (v : ℚ × ℚ × ℚ) : ℚ := max v.1 (max v.2.1 v.2.2)

/-- Componentwise scalar multiple of a 3-vector. -/
def smul3 (c : ℚ) (v : ℚ × ℚ × ℚ) : ℚ × ℚ × ℚ := (c * v.1, c * v.2.1, c * v.2.2)

/-- Per-axis bounding-box extents of a nonempty vertex list:
`mesh.vertices.max(dim=0)[0] - mesh.vertices.min(dim=0)[0]`. -/
def meshExtents (v : ℚ × ℚ × ℚ) (vs : List (ℚ × ℚ × ℚ)) : ℚ × ℚ × ℚ :=
  (vs.foldl (fun a w => max a w.1) v.1 - vs.foldl (fun a w => min a w.1) v.1,
   vs.foldl (fun a w => max a w.2.1) v.2.1 - vs.foldl (fun a w => min a w.2.1) v.2.1,
   vs.foldl (fun a w => max a w.2.2) v.2.2 - vs.foldl (fun a w => min a w.2.2) v.2.2)

/-- `Primitives.set_mesh_scale_to_scene`, modelled on the transform's uniform
scale factor: `transform.scale(s)` multiplies the current scale by `s`
(the `ObjectTransform` class itself is external).  Returns the scale after
the method runs, given the scale `tScale` before it. -/
def set_mesh_scale_to_scene (sceneScale : ℚ × ℚ × ℚ)
    (v : ℚ × ℚ × ℚ) (vs : List (ℚ × ℚ × ℚ)) (tScale : ℚ) : ℚ :=
  let meshScale := meshExtents v vs
  let t1 := tScale * (1 / max3 meshScale)
  if max3 sceneScale > 5 then t1
  else t1 * max3 (smul3 SCALE_OF_NEW_MESH_TO_SMALL_SCENE sceneScale)

/-!  ## Termination predicate (`Engine3DGRUT.has_progressive_effects_to_render`)

The engine state record carries the fields of `Engine3DGRUT` and of the two
external accumulation controllers that the core's logic reads:
`spp_accumulated_for_frame` and `spp` (the configured target) of each. -/

/-- Camera models available to the engine (`AVAILABLE_CAMERAS`); the source
dispatches on these two strings and raises on anything else, so the closed
set is modelled as an inductive. -/
inductive CameraType where
  | Pinhole
  | Fisheye
deriving DecidableEq, Repr

/-- Device placement of a camera (`camera.device.type`). -/
inductive DevType where
  | cpu
  | cuda
deriving DecidableEq, Repr

/-- The part of a kaolin `Camera` the engine reads: device placement, view
matrix (opaque row-major list), and canvas size. -/
structure Camera where
  device : DevType
  viewMatrix : List ℚ
  height : ℕ
  width : ℕ
deriving DecidableEq, Repr

/-- `camera.cuda()`: transfer to the CUDA device; all numeric content is
preserved. -/
def Camera.cuda (c : Camera) : Camera := { c with device := DevType.cuda }

/-- Device normalization at the top of `render_pass` (lines 618-620). -/
def normalizeCameraDevice (c : Camera) : Camera :=
  if c.device = DevType.cpu then c.cuda else c

/-- `OptixPrimitiveTypes`. -/
inductive OptixPrimitiveTypes where
  | NONE
  | MIRROR
  | GLASS
  | DIFFUSE
deriving DecidableEq, Repr

/-- The per-object state of one `OptixPrimitive` that the registry logic
reads; vertex/face tensors come from external loaders and are not modelled. -/
structure PrimObj where
  geometryType : String
  primitiveType : OptixPrimitiveTypes
deriving DecidableEq, Repr

/-- Replace the binding of `k` in an association list, or append it. -/
def updateAssoc (l : List (String × ℕ)) (k : String) (v : ℕ) : List (String × ℕ) :=
  if (l.lookup k).isSome then l.map (fun p => if p.1 = k then (k, v) else p)
  else l ++ [(k, v)]

/-- The mutable state of the `Primitives` registry. -/
structure PrimState where
  objects : List (String × PrimObj)
  dirty : Bool
  instanceCounter : List (String × ℕ)
  enabled : Bool
  useSmoothNormals : Bool
  disableGaussianTracing : Bool
  disablePbrTextures : Bool
  forceWhiteBg : Bool
  enableEnvmap : Bool
  useEnvmapAsBackground : Bool
  sceneScale : ℚ × ℚ × ℚ
  registeredMaterials : List (String × ℕ)
deriving DecidableEq, Repr

/-- `Primitives.has_visible_objects`: some primitive is not of type NONE. -/
def hasVisibleObjects (st : PrimState) : Bool :=
  (st.objects.filter (fun p => p.2.primitiveType ≠ OptixPrimitiveTypes.NONE)).length > 0

/-- `Primitives.rebuild_bvh_if_needed(force, rebuild)`.  The external
`tracer.build_mesh_acc` call (issued exactly when the dirty flag or `force`
is set, either on the stacked buffers or on the degenerate placeholder) is
modelled by the returned boolean; the dirty flag is cleared unconditionally. -/
def rebuildBvhIfNeeded (st : PrimState) (force : Bool) (rebuild : Bool) :
    PrimState × Bool :=
  if st.dirty || force then ({ st with dirty := false }, true)
  else ({ st with dirty := false }, false)

/-- `Primitives.add_primitive(geometry_type, primitive_type)`: bump the
per-geometry instance counter, derive the display name, store the new object.
Geometry creation (mesh loading and any material registration it performs)
is external I/O and not modelled.  The method does not touch the dirty
flag. -/
def addPrimitive (st : PrimState) (geometryType : String)
    (primitiveType : OptixPrimitiveTypes) : PrimState :=
  let counter := match st.instanceCounter.lookup geometryType with
    | none => 1
    | some c => c + 1
  let name := geometryType ++ " " ++ toString counter
  { st with
    instanceCounter := updateAssoc st.instanceCounter geometryType counter,
    objects := st.objects ++ [(name, { geometryType := geometryType, primitiveType := primitiveType })] }

/-- `Primitives.remove_primitive(name)`: delete the object (a missing name
raises `KeyError`, modelled as `none`), then force an immediate rebuild.
Returns the new state and whether the accelerator build was invoked. -/
def removePrimitive (st : PrimState) (name : String) :
    Option (PrimState × Bool) :=
  if (st.objects.lookup name).isSome then
    some (rebuildBvhIfNeeded { st with objects := st.objects.filter (fun p => p.1 ≠ name) } true true)
  else none

/-- `Primitives.duplicate_primitive(name)`: deep-copy the object under a
fresh display name, then force an immediate rebuild. -/
def duplicatePrimitive (st : PrimState) (name : String) :
    Option (PrimState × Bool) :=
  match st.objects.lookup name with
  | none => none
  | some prim =>
    let counter := match st.instanceCounter.lookup prim.geometryType with
      | none => 1
      | some c => c + 1
    let name2 := prim.geometryType ++ " " ++ toString counter
    some (rebuildBvhIfNeeded
      { st with
        instanceCounter := updateAssoc st.instanceCounter prim.geometryType counter,
        objects := st.objects ++ [(name2, prim)] } true true)

/-!  ## Material registry (`Primitives.register_materials`)

Only the namespaced key and the assigned `material_id` participate in the
registry logic; texture/factor payloads are opaque.  The registry is the
insertion-ordered association list behind the Python dict
`self.registered_materials`, and a fresh id is `len(self.registered_materials)`
at insertion time. -/

/-- `Primitives.register_default_materials`: the two built-in materials with
ids 0 and 1. -/
def register_default_materials : List (String × ℕ) :=
  [("solid", 0), ("checkboard", 1)]

/-- One iteration of the loop in `register_materials`: compute the namespaced
key `"<model>$<material name>"`; if unseen, append it with id = current
registry size; return the resolved id. -/
def registerMaterialsStep (reg : List (String × ℕ)) (modelName matName : String) :
    List (String × ℕ) × ℕ :=
  let key := modelName ++ "$" ++ matName
  match reg.lookup key with
  | some mid => (reg, mid)
  | none => (reg ++ [(key, reg.length)], reg.length)

/-- `Primitives.register_materials(materials, model_name)`: register each
input material in order and return the list of resolved ids
(`mat_idx_to_mat_id`). -/
def register_materials (reg : List (String × ℕ)) (materials : List String)
    (modelName : String) : List (String × ℕ) × List ℕ :=
  match materials with
  | [] => (reg, [])
  | m :: ms =>
    let step := registerMaterialsStep reg modelName m
    let rest := register_materials step.1 ms modelName
    (rest.1, step.2 :: rest.2)

/-- The id-assignment invariant of the registry: the ids, read in insertion
order, are exactly `0, 1, ..., size-1`.  It holds for the default registry
and is preserved by registration. -/
def matRegistryIdsAreIndices (reg : List (String × ℕ)) : Prop :=
  reg.map Prod.snd = List.range reg.length

instance (reg : List (String × ℕ)) : Decidable (matRegistryIdsAreIndices reg) := by
  unfold matRegistryIdsAreIndices; infer_instance

/-!  ## RayPack and splitting (`RayPack.split`)

Ray tensors are modelled with explicit shapes: a tensor is a shape list plus
row-major data, `ndim` is the shape length.  `torch.split(t, size, dim=0)`
cuts the data into chunks of `size` leading rows. -/

/-- A torch tensor: shape plus row-major data. -/
structure PGTensor where
  shape : List ℕ
  data : List ℚ
deriving DecidableEq, Repr

/-- `tensor.ndim`. -/
def PGTensor.ndim (t : PGTensor) : ℕ := t.shape.length

/-- Cut a list into consecutive chunks of `n` elements (the last chunk may be
shorter).  `n = 0` yields no chunks (torch rejects a zero split size). -/
def chunkList {α : Type} (n : ℕ) (xs : List α) : List (List α) :=
  if n = 0 then []
  else if xs.isEmpty then []
  else xs.take n :: chunkList n (xs.drop n)
termination_by xs.length
decreasing_by
  simp only [List.length_drop]
  have hx : xs ≠ [] := by simpa [List.isEmpty_iff] using (by assumption : ¬xs.isEmpty = true)
  have : 0 < xs.length := List.length_pos.mpr hx
  omega

/-- `torch.split(t, size, dim=0)` on the tensor model: chunk the data into
`size`-row pieces (a row holds `t.shape.tail.prod` scalars). -/
def torchSplit0 (t : PGTensor) (size : ℕ) : List PGTensor :=
  let rowW := t.shape.tail.prod
  (chunkList (size * rowW) t.data).map
    (fun d => { shape := d.length / rowW :: t.shape.tail, data := d })

/-- `RayPack`: a batch of generated rays.  Pixel-coordinate tensors exist in
the source but do not participate in splitting. -/
structure RayPackT where
  rays_ori : PGTensor
  rays_dir : PGTensor
  pixel_x : Option PGTensor := none
  pixel_y : Option PGTensor := none
  mask : Option PGTensor := none
deriving Repr

/-- `RayPack.split(size)`: `size=None` returns the pack unchanged; otherwise
the pack must be flat (both ray tensors 2-dimensional, asserted in the
source) and is cut into chunks of `size` rays (Python's `zip` truncates to
the shorter list, as does `List.zipWith`). -/
def RayPackT.split (p : RayPackT) (size : Option ℕ) : Except String (List RayPackT) :=
  match size with
  | none => Except.ok [p]
  | some s =>
    if p.rays_ori.ndim = 2 ∧ p.rays_dir.ndim = 2 then
      Except.ok (List.zipWith
        (fun o d => { rays_ori := o, rays_dir := d })
        (torchSplit0 p.rays_ori s) (torchSplit0 p.rays_dir s))
    else Except.error "Only 1D ray packs can be split"

/-!  ## Engine state and the render pass (`Engine3DGRUT`) -/

/-- The result dict of a trace call (`pred_rgb`, `pred_opacity`,
`last_ray_d`); further entries are opaque. -/
structure TraceOut where
  predRgb : Image
  predOpacity : Image
  lastRayD : List ℚ := []
deriving DecidableEq, Repr

/-- The `RayPack` produced by `Engine3DGRUT.raygen`: ray tensors (opaque
flattened encodings consumed only by the external trace functions) and the
optional validity mask.  Pixel-coordinate outputs are not consumed by
`render_pass` and are omitted. -/
structure GenRays where
  raysOri : List ℚ
  raysDir : List ℚ
  mask : Option (List Bool)
deriving DecidableEq, Repr

/-- The engine's returned render buffers: displayed `rgb`, the pre-denoise
noisy `rgb_buffer`, and `opacity`. -/
structure RenderBuffers where
  rgb : Image
  rgbBuffer : Image
  opacity : Image
deriving DecidableEq, Repr

/-- The buffers threaded through the middle of `render_pass` before the
noisy-copy/denoise/mask tail. -/
structure CoreBuffers where
  rgb : Image
  opacity : Image
deriving DecidableEq, Repr

/-- `Engine3DGRUT.last_state`: the last-rendered-state cache. -/
structure LastState where
  cameraVM : Option (List ℚ) := none
  rgb : Image := []
  rgbBuffer : Image := []
  opacity : Image := []
  canvasSize : List ℕ := []
deriving DecidableEq, Repr

/-- The engine fields read or written by the render-pass logic.  `dofAcc` /
`dofSpp` are `depth_of_field.spp_accumulated_for_frame` / `.spp`, and
`sppAcc` / `sppSpp` / `sppBatch` are the corresponding antialiasing
controller fields (the controllers themselves are external collaborators;
only these counters are consumed by the core). -/
structure EngineState where
  cameraType : CameraType
  useDepthOfField : Bool
  dofAcc : ℕ
  dofSpp : ℕ
  useSpp : Bool
  sppAcc : ℕ
  sppSpp : ℕ
  sppBatch : ℕ
  gammaCorrection : ℚ
  useOptixDenoiser : Bool
  frameId : ℕ
  isMaterialsDirty : Bool
  envmap : Option Unit
  primitives : PrimState
  lastState : LastState
deriving Repr

/-- The external collaborators of the engine, as explicit deterministic
functions: the volumetric trace, the hybrid playground tracer, the model's
background compositor, the denoiser, torch's elementwise `pow`, the two ray
generators, the antialiasing jitter source and the depth-of-field lens
sampler. -/
structure Ext where
  mogTrace : List ℚ → List ℚ → TraceOut
  renderPlayground : ℕ → ℕ → Bool → List ℚ → List ℚ → List ℚ → TraceOut
  mogBackground : List ℚ → Image → Image → Image × Image
  denoise : Image → Image
  qpow : ℚ → ℚ → ℚ
  raygenPinhole : Camera → Option ℕ → GenRays
  raygenFisheye : Camera → Option ℕ → GenRays
  sppJitter : ℕ → ℕ
  dofSample : List ℚ → List ℚ → List ℚ → List ℚ × List ℚ

/-- `Engine3DGRUT.has_progressive_effects_to_render`. -/
def hasProgressiveEffectsToRender (st : EngineState) : Bool :=
  (st.useDepthOfField && decide (st.dofAcc ≤ st.dofSpp)) ||
  (!st.useDepthOfField && st.useSpp && decide (st.sppAcc ≤ st.sppSpp))

/-- The `is_use_spp` flag of `render_pass` (line 622). -/
def isUseSppFlag (st : EngineState) (isFirstPass : Bool) : Bool :=
  !isFirstPass && !st.useDepthOfField && st.useSpp

/-- `Engine3DGRUT.raygen`: draw `batch_size` jittered samples (one
non-jittered sample when antialiasing is off for this pass), generate rays
per the configured camera model, concatenate ray batches, and keep only the
first sample's mask. -/
def raygen (ext : Ext) (st : EngineState) (camera : Camera) (useSpp : Bool) : GenRays :=
  let rayBatchSize := if useSpp then st.sppBatch else 1
  let packs := (List.range rayBatchSize).map (fun k =>
    let jitter : Option ℕ := if useSpp then some (ext.sppJitter k) else none
    match st.cameraType with
    | CameraType.Pinhole => ext.raygenPinhole camera jitter
    | CameraType.Fisheye => ext.raygenFisheye camera jitter)
  { raysOri := (packs.map GenRays.raysOri).flatten,
    raysDir := (packs.map GenRays.raysDir).flatten,
    mask := Option.bind packs.head? GenRays.mask }

/-- `Engine3DGRUT._render_playground_hybrid`: derive the option bit-flags,
rebuild the mesh BVH if dirty, invoke the external hybrid tracer with the
current frame id and the materials-dirty flag, composite the background
(white by opacity complement, or the volumetric model's own compositor),
clear the materials-dirty flag, advance the frame counter, clamp colours to
[0,1]. -/
def renderPlaygroundHybrid (ext : Ext) (st : EngineState)
    (raysO raysD : List ℚ) : TraceOut × EngineState :=
  let opts : ℕ := (if st.primitives.useSmoothNormals then 1 else 0) |||
    (if st.primitives.disableGaussianTracing then 2 else 0) |||
    (if st.primitives.disablePbrTextures then 4 else 0)
  let prim1 := (rebuildBvhIfNeeded st.primitives false true).1
  let envmap := if st.primitives.forceWhiteBg then none else st.envmap
  let backgroundColor : List ℚ := if st.primitives.forceWhiteBg then [1, 1, 1] else [0, 0, 0]
  let res := ext.renderPlayground opts st.frameId st.isMaterialsDirty raysO raysD backgroundColor
  let rgbOpac :=
    if envmap.isNone || !st.primitives.useEnvmapAsBackground then
      if st.primitives.forceWhiteBg then
        (imap2 (fun r o => r + (1 - o)) res.predRgb res.predOpacity, res.predOpacity)
      else ext.mogBackground res.lastRayD res.predRgb res.predOpacity
    else (res.predRgb, res.predOpacity)
  let st1 := { st with
    primitives := prim1,
    isMaterialsDirty := false,
    frameId := advanceFrameId st.frameId st.sppBatch }
  ({ res with
      predRgb := imap (fun x => min (max x 0) 1) rgbOpac.1,
      predOpacity := rgbOpac.2 }, st1)

/-- `Engine3DGRUT._render_depth_of_field_buffer`: when depth of field is on
and has budget left (the controller's `has_more_to_accumulate`, modelled
from the spec as `accumulated ≤ target`), perturb the rays through the lens
sampler, trace, and mix into the buffers with the gamma-aware rule at batch
size 1.  The controller's counter advance is external; modelled from the
spec as one accumulated sample per call. -/
def renderDepthOfFieldBuffer (ext : Ext) (st : EngineState) (camera : Camera)
    (rays : GenRays) (rb : CoreBuffers) : CoreBuffers × EngineState :=
  if st.useDepthOfField && decide (st.dofAcc ≤ st.dofSpp) then
    let i : ℚ := st.dofAcc
    let dofRays := ext.dofSample camera.viewMatrix rays.raysOri rays.raysDir
    let traced :=
      if !(st.primitives.enabled && hasVisibleObjects st.primitives) then
        (ext.mogTrace dofRays.1 dofRays.2, st)
      else renderPlaygroundHybrid ext st dofRays.1 dofRays.2
    let rgb := accumulateToBufferI ext.qpow rb.rgb traced.1.predRgb i st.gammaCorrection 1
    let opacity := imap2 (fun o n => (o * i + n) / (i + 1)) rb.opacity traced.1.predOpacity
    ({ rgb := rgb, opacity := opacity }, { traced.2 with dofAcc := traced.2.dofAcc + 1 })
  else (rb, st)

/-- `Engine3DGRUT._render_spp_buffer`: when antialiasing is on and has budget
left, trace the jittered ray batch, sum its colour over the batch axis, and
mix into the buffers with the gamma-aware rule weighted by the batch size.
The controller's counter advance is external; modelled from the spec as
`batch_size` accumulated samples per call. -/
def renderSppBuffer (ext : Ext) (st : EngineState)
    (rays : GenRays) (rb : CoreBuffers) : CoreBuffers × EngineState :=
  if st.useSpp && decide (st.sppAcc ≤ st.sppSpp) then
    let i : ℚ := st.sppAcc
    let traced :=
      if !(st.primitives.enabled && hasVisibleObjects st.primitives) then
        (ext.mogTrace rays.raysOri rays.raysDir, st)
      else renderPlaygroundHybrid ext st rays.raysOri rays.raysDir
    let batchRgb : Image := [batchSum traced.1.predRgb]
    let rgb := accumulateToBufferI ext.qpow rb.rgb batchRgb i st.gammaCorrection st.sppBatch
    let opacity := imap2 (fun o n => (o * i + n) / (i + (st.sppBatch : ℚ))) rb.opacity traced.1.predOpacity
    ({ rgb := rgb, opacity := opacity }, { traced.2 with sppAcc := traced.2.sppAcc + st.sppBatch })
  else (rb, st)

/-- The branching middle of `render_pass` (lines 625-643): on a first pass
trace fresh rays, apply inverse gamma, average over the batch axis, and
reset both controllers' counters (the reset is the controllers' external
`reset_accumulation`, specified to zero the progress counters); otherwise
resume from the cached noisy buffer and run at most one progressive
effect, depth of field taking priority. -/
def renderPassCore (ext : Ext) (st : EngineState) (camera : Camera)
    (isFirstPass : Bool) (rays : GenRays) : CoreBuffers × EngineState :=
  if isFirstPass then
    let traced :=
      if !(st.primitives.enabled && hasVisibleObjects st.primitives) then
        (ext.mogTrace rays.raysOri rays.raysDir, st)
      else renderPlaygroundHybrid ext st rays.raysOri rays.raysDir
    let rgb1 := imap (fun x => ext.qpow x (1 / st.gammaCorrection)) traced.1.predRgb
    ({ rgb := [batchMean rgb1], opacity := [batchMean traced.1.predOpacity] },
      { traced.2 with sppAcc := 0, dofAcc := 0 })
  else
    let rb0 : CoreBuffers := { rgb := st.lastState.rgbBuffer, opacity := st.lastState.opacity }
    if st.useDepthOfField then renderDepthOfFieldBuffer ext st camera rays rb0
    else if st.useSpp then renderSppBuffer ext st rays rb0
    else (rb0, st)

/-- Lines 645-648 of `render_pass`: keep the noisy copy of the accumulated
rgb buffer, then (optionally) denoise the displayed copy. -/
def denoiseStage (ext : Ext) (useDenoiser : Bool) (rb : CoreBuffers) : RenderBuffers :=
  { rgb := if useDenoiser then ext.denoise rb.rgb else rb.rgb,
    rgbBuffer := rb.rgb,
    opacity := rb.opacity }

/-- Lines 650-654 of `render_pass`: if the rays carry a validity mask, force
masked pixels to zero in the displayed rgb, the noisy cache and the opacity
buffer.  Applied after accumulation and denoising. -/
def maskStage (maskQ : Option (List Bool)) (rb : RenderBuffers) : RenderBuffers :=
  match maskQ with
  | none => rb
  | some m =>
    { rgb := maskApplyI m rb.rgb,
      rgbBuffer := maskApplyI m rb.rgbBuffer,
      opacity := maskApplyI m rb.opacity }

/-- `Engine3DGRUT.cache_last_state`. -/
def cacheLastState (st : EngineState) (camera : Camera) (rb : RenderBuffers)
    (canvasSize : List ℕ) : EngineState :=
  { st with lastState :=
    { cameraVM := some camera.viewMatrix,
      rgb := rb.rgb,
      rgbBuffer := rb.rgbBuffer,
      opacity := rb.opacity,
      canvasSize := canvasSize } }

/-- The rays `render_pass` generates, as a reusable definition: generated
from the device-normalized camera with jitter iff this is a non-first pass
with antialiasing active and depth of field off. -/
def renderPassRays (ext : Ext) (st : EngineState) (camera : Camera)
    (isFirstPass : Bool) : GenRays :=
  raygen ext st (normalizeCameraDevice camera) (isUseSppFlag st isFirstPass)

/-- `Engine3DGRUT.render_pass(camera, is_first_pass)`: normalize the camera
device, generate rays, run the first-pass or accumulation branch, keep the
noisy copy, denoise, mask, cache, and return the buffers. -/
def renderPass (ext : Ext) (st : EngineState) (camera : Camera)
    (isFirstPass : Bool) : RenderBuffers × EngineState :=
  let cam := normalizeCameraDevice camera
  let rays := renderPassRays ext st camera isFirstPass
  let core := renderPassCore ext st cam isFirstPass rays
  let rb := maskStage rays.mask (denoiseStage ext core.2.useOptixDenoiser core.1)
  (rb, cacheLastState core.2 cam rb [cam.height, cam.width])

/-!  ## Claim C1 — frame counter wraparound -/

/-- C1 (code bug evidence): starting at `frame_id = 2^31 - 2` with an
antialiasing batch size of 4, the hybrid-path frame-counter update of
`_render_playground_hybrid` produces `2^31 + 2`, a value strictly above the
31-bit signed maximum `2^31 - 1` — it does not wrap to zero before
overflowing, contrary to the claim and to the code's own comment
`avoid int32 overflow`. -/
theorem c1_frame_counter_overflows :
    advanceFrameId (2 ^ 31 - 2) 4 = 2 ^ 31 + 2 ∧
    2 ^ 31 - 1 < advanceFrameId (2 ^ 31 - 2) 4 := by
  constructor <;> norm_num [advanceFrameId]

/-!  ## Claim C3 — gamma-correct accumulation -/

/-- C3: `_accumulate_to_buffer` returns `((P^g * n + N) / (n + b))^(1/g)`
for previous buffer `P`, new contribution `N` worth `b` samples, prior
sample count `n` and gamma `g`; and at `g = 1`, accumulating two
equal-weight contributions `a` and `b` (`n = 1`, `b = 1`) yields exactly
`(a + b) / 2`. -/
theorem c3_accumulate_to_buffer_formula :
    (∀ P N n g b : ℝ,
        accumulate_to_buffer P N n g b = ((P ^ g * n + N) / (n + b)) ^ (1 / g)) ∧
    (∀ a b : ℝ, accumulate_to_buffer a b 1 1 1 = (a + b) / 2) := by
  refine ⟨fun P N n g b => rfl, fun a b => ?_⟩
  show ((a ^ (1 : ℝ) * 1 + b) / (1 + 1)) ^ ((1 : ℝ) / 1) = (a + b) / 2
  rw [Real.rpow_one, one_div_one, Real.rpow_one]
  norm_num

/-!  ## Claim C4 — termination predicate -/

/-- C4: `has_progressive_effects_to_render()` is true iff depth of field is
enabled and its accumulated-sample count is at most its target, or depth of
field is disabled, antialiasing is enabled, and antialiasing's
accumulated-sample count is at most its target. -/
theorem c4_has_progressive_effects_iff (st : EngineState) :
    hasProgressiveEffectsToRender st = true ↔
      ((st.useDepthOfField = true ∧ st.dofAcc ≤ st.dofSpp) ∨
       (st.useDepthOfField = false ∧ st.useSpp = true ∧ st.sppAcc ≤ st.sppSpp)) := by
  simp [hasProgressiveEffectsToRender, Bool.and_eq_true, Bool.or_eq_true,
    Bool.not_eq_true', and_assoc]

/-!  ## Claim C6 — mesh auto-scaling policy -/

/-- The largest component of a nonnegatively scaled 3-vector is the scale
times the largest component. -/
theorem max3_smul3 (c : ℚ) (hc : 0 ≤ c) (w : ℚ × ℚ × ℚ) :
    max3 (smul3 c w) = c * max3 w := by
  unfold max3 smul3
  rw [mul_max_of_nonneg _ _ hc, mul_max_of_nonneg _ _ hc]

/-- C6: `set_mesh_scale_to_scene` on an identity transform first rescales by
the reciprocal of the mesh's largest bounding-box extent and then, exactly
when the scene's largest axis extent is at most 5, additionally by half that
scene extent: the total scale is `0.5 * scene_extent / mesh_extent` for
small scenes and `1 / mesh_extent` for scenes with extent above 5. -/
theorem c6_set_mesh_scale_to_scene (sceneScale v : ℚ × ℚ × ℚ)
    (vs : List (ℚ × ℚ × ℚ)) :
    set_mesh_scale_to_scene sceneScale v vs 1 =
      if max3 sceneScale ≤ 5 then
        1 / 2 * max3 sceneScale / max3 (meshExtents v vs)
      else 1 / max3 (meshExtents v vs) := by
  unfold set_mesh_scale_to_scene
  rcases le_or_lt (max3 sceneScale) 5 with h | h
  · rw [if_neg (not_lt.mpr h), if_pos h,
      max3_smul3 SCALE_OF_NEW_MESH_TO_SMALL_SCENE (by norm_num [SCALE_OF_NEW_MESH_TO_SMALL_SCENE])]
    unfold SCALE_OF_NEW_MESH_TO_SMALL_SCENE
    ring
  · rw [if_pos h, if_neg (not_le.mpr h)]
    ring

/-!  ## Claim C10 — CPU camera device normalization -/

/-- C10: `render_pass` gives the same buffers and state when handed a CPU
camera as when handed the camera already transferred to CUDA; the CPU camera
is normalized via `camera.cuda()` before any other use, so device placement
never changes the result. -/
theorem c10_render_pass_camera_device (ext : Ext) (st : EngineState)
    (camera : Camera) (isFirstPass : Bool) :
    renderPass ext st camera isFirstPass =
      renderPass ext st camera.cuda isFirstPass := by
  have h : normalizeCameraDevice camera = normalizeCameraDevice camera.cuda := by
    cases camera with
    | mk dev vm hh ww => cases dev <;> simp [normalizeCameraDevice, Camera.cuda]
  unfold renderPass renderPassRays
  rw [h]

/-!  ## Claim C2 — dirty propagation through primitive mutators -/

/-- A registry state with the dirty flag already cleared (as it is after any
`rebuild_bvh_if_needed` call) and no objects. -/
def primStateClean : PrimState :=
  { objects := [], dirty := false, instanceCounter := [], enabled := true,
    useSmoothNormals := true, disableGaussianTracing := false,
    disablePbrTextures := false, forceWhiteBg := false, enableEnvmap := false,
    useEnvmapAsBackground := false, sceneScale := (1, 1, 1),
    registeredMaterials := register_default_materials }

/-- C2 (counterexample): from a clean registry, `add_primitive` leaves the
dirty flag clear, so the next `rebuild_bvh_if_needed(force=False)` does not
invoke the accelerator build — contradicting the claim that every mutator
marks the registry dirty and the next non-forced rebuild call rebuilds. -/
theorem c2_counterexample :
    (addPrimitive primStateClean "Quad" OptixPrimitiveTypes.DIFFUSE).dirty = false ∧
    (rebuildBvhIfNeeded (addPrimitive primStateClean "Quad" OptixPrimitiveTypes.DIFFUSE)
        false true).2 = false := by
  constructor <;> rfl

/-- C2 (amended): `add_primitive` leaves the dirty flag unchanged (it never
marks the registry dirty); `remove_primitive` and `duplicate_primitive`
perform an immediate forced rebuild themselves and leave the flag clear, so
the next `rebuild_bvh_if_needed(force=False)` performs no rebuild; and after
any `rebuild_bvh_if_needed` call a second consecutive non-forced call with
no intervening mutation never rebuilds. -/
theorem c2_dirty_propagation_amended :
    (∀ (st : PrimState) (g : String) (t : OptixPrimitiveTypes),
        (addPrimitive st g t).dirty = st.dirty) ∧
    (∀ (st : PrimState) (name : String) (st2 : PrimState) (b : Bool),
        removePrimitive st name = some (st2, b) →
        b = true ∧ st2.dirty = false ∧ (rebuildBvhIfNeeded st2 false true).2 = false) ∧
    (∀ (st : PrimState) (name : String) (st2 : PrimState) (b : Bool),
        duplicatePrimitive st name = some (st2, b) →
        b = true ∧ st2.dirty = false ∧ (rebuildBvhIfNeeded st2 false true).2 = false) ∧
    (∀ (st : PrimState) (force rebuildFlag : Bool),
        (rebuildBvhIfNeeded (rebuildBvhIfNeeded st force rebuildFlag).1 false true).2 = false) := by
  refine ⟨fun st g t => rfl, ?_, ?_, ?_⟩
  · intro st name st2 b h
    unfold removePrimitive at h
    split at h
    · unfold rebuildBvhIfNeeded at h
      simp only [Bool.or_true, if_pos] at h
      obtain ⟨h1, h2⟩ := Prod.mk.injEq .. ▸ (Option.some.injEq .. ▸ h)
      refine ⟨h2.symm, ?_, ?_⟩ <;> simp [← h1, rebuildBvhIfNeeded]
    · exact absurd h (by simp)
  · intro st name st2 b h
    unfold duplicatePrimitive at h
    split at h
    · exact absurd h (by simp)
    · unfold rebuildBvhIfNeeded at h
      simp only [Bool.or_true, if_pos] at h
      obtain ⟨h1, h2⟩ := Prod.mk.injEq .. ▸ (Option.some.injEq .. ▸ h)
      refine ⟨h2.symm, ?_, ?_⟩ <;> simp [← h1, rebuildBvhIfNeeded]
  · intro st force rebuildFlag
    simp [rebuildBvhIfNeeded]
    split <;> simp

/-- A registry holding exactly one primitive, `"Quad 1"`. -/
def primStateOne : PrimState :=
  addPrimitive primStateClean "Quad" OptixPrimitiveTypes.DIFFUSE

/-- C2 (witness): removing the only primitive of a concrete registry invokes
the build immediately, and the next non-forced rebuild call does nothing. -/
theorem c2_amended_witness :
    removePrimitive primStateOne "Quad 1" =
      some ({ primStateOne with objects := [], dirty := false }, true) ∧
    (rebuildBvhIfNeeded { primStateOne with objects := [], dirty := false } false true).2 = false :=
  ⟨by decide,
    (c2_dirty_propagation_amended.2.1 primStateOne "Quad 1"
      { primStateOne with objects := [], dirty := false } true (by decide)).2.2⟩

/-!  ## Claim C5 — material registration idempotence -/

/-- Looking a key up in a concatenation tries the left list first. -/
theorem lookup_append (l l2 : List (String × ℕ)) (k : String) :
    (l ++ l2).lookup k = (l.lookup k).or (l2.lookup k) := by
  induction l with
  | nil => simp
  | cons p ps ih =>
    obtain ⟨a, b⟩ := p
    by_cases h : k = a
    · simp [List.lookup_cons, h]
    · simp [List.lookup_cons, beq_false_of_ne h, ih]

/-- Defining equation of a registration step when the key is already known. -/
theorem registerMaterialsStep_eq_some {reg : List (String × ℕ)}
    {modelName matName : String} {mid : ℕ}
    (h : reg.lookup (modelName ++ "$" ++ matName) = some mid) :
    registerMaterialsStep reg modelName matName = (reg, mid) := by
  simp [registerMaterialsStep, h]

/-- Defining equation of a registration step when the key is new. -/
theorem registerMaterialsStep_eq_none {reg : List (String × ℕ)}
    {modelName matName : String}
    (h : reg.lookup (modelName ++ "$" ++ matName) = none) :
    registerMaterialsStep reg modelName matName =
      (reg ++ [(modelName ++ "$" ++ matName, reg.length)], reg.length) := by
  simp [registerMaterialsStep, h]

/-- Defining equation of `register_materials` on a cons list. -/
theorem register_materials_cons (reg : List (String × ℕ)) (modelName m : String)
    (ms : List String) :
    register_materials reg (m :: ms) modelName =
      ((register_materials (registerMaterialsStep reg modelName m).1 ms modelName).1,
       (registerMaterialsStep reg modelName m).2 ::
         (register_materials (registerMaterialsStep reg modelName m).1 ms modelName).2) := rfl

/-- After one registration step, the registered key resolves to the returned
id. -/
theorem registerMaterialsStep_lookup (reg : List (String × ℕ))
    (modelName matName : String) :
    ((registerMaterialsStep reg modelName matName).1).lookup (modelName ++ "$" ++ matName) =
      some (registerMaterialsStep reg modelName matName).2 := by
  cases hl : reg.lookup (modelName ++ "$" ++ matName) with
  | some mid => rw [registerMaterialsStep_eq_some hl]; simpa using hl
  | none => rw [registerMaterialsStep_eq_none hl]; simp [lookup_append, hl]

/-- A registration step preserves every existing key binding. -/
theorem registerMaterialsStep_mono (reg : List (String × ℕ))
    (modelName matName : String) (k : String) (v : ℕ)
    (h : reg.lookup k = some v) :
    ((registerMaterialsStep reg modelName matName).1).lookup k = some v := by
  cases hl : reg.lookup (modelName ++ "$" ++ matName) with
  | some mid => rw [registerMaterialsStep_eq_some hl]; simpa using h
  | none => rw [registerMaterialsStep_eq_none hl]; simp [lookup_append, h]

/-- Registering a material list preserves every existing key binding. -/
theorem register_materials_mono (mats : List String) :
    ∀ (reg : List (String × ℕ)) (modelName k : String) (v : ℕ),
      reg.lookup k = some v →
      ((register_materials reg mats modelName).1).lookup k = some v := by
  induction mats with
  | nil => intro reg modelName k v h; simpa [register_materials] using h
  | cons m ms ih =>
    intro reg modelName k v h
    rw [register_materials_cons]
    exact ih _ _ _ _ (registerMaterialsStep_mono reg modelName m k v h)

/-- Registering the same material list a second time changes nothing and
returns the same resolved ids. -/
theorem register_materials_idem (mats : List String) :
    ∀ (reg : List (String × ℕ)) (modelName : String),
      register_materials (register_materials reg mats modelName).1 mats modelName =
        register_materials reg mats modelName := by
  induction mats with
  | nil => intro reg modelName; rfl
  | cons m ms ih =>
    intro reg modelName
    rw [register_materials_cons reg modelName m ms, register_materials_cons,
      registerMaterialsStep_eq_some
        (register_materials_mono ms _ modelName _ _ (registerMaterialsStep_lookup reg modelName m)),
      ih (registerMaterialsStep reg modelName m).1 modelName]

/-- A registration step preserves the ids-are-indices invariant. -/
theorem registerMaterialsStep_inv (reg : List (String × ℕ))
    (modelName matName : String) (h : matRegistryIdsAreIndices reg) :
    matRegistryIdsAreIndices (registerMaterialsStep reg modelName matName).1 := by
  cases hl : reg.lookup (modelName ++ "$" ++ matName) with
  | some mid => rw [registerMaterialsStep_eq_some hl]; exact h
  | none =>
    rw [registerMaterialsStep_eq_none hl]
    unfold matRegistryIdsAreIndices at h ⊢
    simp [List.range_succ, h]

/-- Registering a material list preserves the ids-are-indices invariant. -/
theorem register_materials_inv (mats : List String) :
    ∀ (reg : List (String × ℕ)) (modelName : String),
      matRegistryIdsAreIndices reg →
      matRegistryIdsAreIndices (register_materials reg mats modelName).1 := by
  induction mats with
  | nil => intro reg modelName h; exact h
  | cons m ms ih =>
    intro reg modelName h
    rw [register_materials_cons]
    exact ih _ _ (registerMaterialsStep_inv reg modelName m h)

/-- Under the ids-are-indices invariant, two registry entries with the same
id are the same entry. -/
theorem matRegistry_id_inj (reg : List (String × ℕ))
    (h : matRegistryIdsAreIndices reg) (p q : String × ℕ)
    (hp : p ∈ reg) (hq : q ∈ reg) (hpq : p.2 = q.2) : p = q := by
  obtain ⟨i, hi, rfl⟩ := List.getElem_of_mem hp
  obtain ⟨j, hj, rfl⟩ := List.getElem_of_mem hq
  unfold matRegistryIdsAreIndices at h
  have hsnd : ∀ t, ∀ ht : t < reg.length, (reg.get ⟨t, ht⟩).2 = t := by
    intro t ht
    have h1 : (reg.map Prod.snd)[t]? = (List.range reg.length)[t]? := by rw [h]
    rw [List.getElem?_map, List.getElem?_eq_getElem ht, List.getElem?_range ht] at h1
    simpa using h1
  have hij : i = j := by
    have hi2 := hsnd i hi
    have hj2 := hsnd j hj
    simp only [List.get_eq_getElem] at hi2 hj2
    rw [hi2, hj2] at hpq
    exact hpq
  subst hij
  rfl

/-- C5: registering a material whose namespaced key is already known is a
no-op returning the existing id; re-registering a whole material list under
the same owning-model name leaves the registry unchanged and returns the
same resolved ids; and (from the ids-are-indices invariant, which holds for
the default registry and is preserved by registration) two distinct keys
never share an id. -/
theorem c5_register_materials (reg : List (String × ℕ)) (modelName : String)
    (mats : List String) (hInv : matRegistryIdsAreIndices reg) :
    (∀ matName mid, reg.lookup (modelName ++ "$" ++ matName) = some mid →
        registerMaterialsStep reg modelName matName = (reg, mid)) ∧
    register_materials (register_materials reg mats modelName).1 mats modelName =
      register_materials reg mats modelName ∧
    matRegistryIdsAreIndices (register_materials reg mats modelName).1 ∧
    (∀ p ∈ (register_materials reg mats modelName).1,
        ∀ q ∈ (register_materials reg mats modelName).1, p.1 ≠ q.1 → p.2 ≠ q.2) := by
  refine ⟨fun matName mid h => registerMaterialsStep_eq_some h,
    register_materials_idem mats reg modelName,
    register_materials_inv mats reg modelName hInv, ?_⟩
  intro p hp q hq hne heq
  exact hne (congrArg Prod.fst
    (matRegistry_id_inj _ (register_materials_inv mats reg modelName hInv) p q hp hq heq))

/-- C5 (witness): concrete double registration of one material list over the
default registry is a fixpoint, and the invariant holds throughout. -/
theorem c5_witness :
    matRegistryIdsAreIndices register_default_materials ∧
    register_materials
        (register_materials register_default_materials ["wood"] "Chair").1 ["wood"] "Chair" =
      register_materials register_default_materials ["wood"] "Chair" :=
  ⟨by decide,
    (c5_register_materials register_default_materials "Chair" ["wood"] (by decide)).2.1⟩

/-!  ## Claim C9 — ray pack splitting -/

/-- Concatenating the chunks of a nonzero chunk size recovers the list. -/
theorem chunkList_flatten {α : Type} (n : ℕ) (hn : n ≠ 0) (xs : List α) :
    (chunkList n xs).flatten = xs := by
  have key : ∀ (k : ℕ) (ys : List α), ys.length ≤ k → (chunkList n ys).flatten = ys := by
    intro k
    induction k with
    | zero =>
      intro ys hy
      have hnil : ys = [] := List.eq_nil_of_length_eq_zero (Nat.le_zero.mp hy)
      subst hnil
      simp [chunkList]
    | succ k ih =>
      intro ys hy
      rw [chunkList]
      by_cases hys : ys.isEmpty
      · rw [if_neg hn, if_pos hys]
        simpa using (List.isEmpty_iff.mp hys).symm
      · rw [if_neg hn, if_neg hys]
        have hpos : 0 < ys.length := by
          rcases List.isEmpty_iff.not.mp hys with h
          exact List.length_pos.mpr h
        rw [List.flatten_cons, ih (ys.drop n) (by simp; omega), List.take_append_drop]
  exact key xs.length xs le_rfl

/-- Every chunk has at most the requested chunk size. -/
theorem chunkList_length_le {α : Type} (n : ℕ) (xs : List α) :
    ∀ c ∈ chunkList n xs, c.length ≤ n := by
  have key : ∀ (k : ℕ) (ys : List α), ys.length ≤ k → ∀ c ∈ chunkList n ys, c.length ≤ n := by
    intro k
    induction k with
    | zero =>
      intro ys hy c hc
      have hnil : ys = [] := List.eq_nil_of_length_eq_zero (Nat.le_zero.mp hy)
      subst hnil
      rw [chunkList] at hc
      simp at hc
    | succ k ih =>
      intro ys hy c hc
      rw [chunkList] at hc
      by_cases hn : n = 0
      · simp [hn] at hc
      · rw [if_neg hn] at hc
        by_cases hys : ys.isEmpty
        · rw [if_pos hys] at hc; simp at hc
        · rw [if_neg hys] at hc
          have hpos : 0 < ys.length := by
            rcases List.isEmpty_iff.not.mp hys with h
            exact List.length_pos.mpr h
          rcases List.mem_cons.mp hc with h | h
          · subst h; simpa using Nat.min_le_left n ys.length
          · exact ih (ys.drop n) (by simp; omega) c h
  exact key xs.length xs le_rfl

/-- The number of chunks depends only on the list length. -/
theorem chunkList_length_eq {α β : Type} (n : ℕ) (xs : List α) (ys : List β)
    (hlen : xs.length = ys.length) :
    (chunkList n xs).length = (chunkList n ys).length := by
  have key : ∀ (k : ℕ) (as : List α) (bs : List β), as.length ≤ k →
      as.length = bs.length → (chunkList n as).length = (chunkList n bs).length := by
    intro k
    induction k with
    | zero =>
      intro as bs ha hab
      have h1 : as = [] := List.eq_nil_of_length_eq_zero (Nat.le_zero.mp ha)
      have h2 : bs = [] := List.eq_nil_of_length_eq_zero (by omega)
      subst h1; subst h2; simp [chunkList]
    | succ k ih =>
      intro as bs ha hab
      conv_lhs => rw [chunkList]
      conv_rhs => rw [chunkList]
      by_cases hn : n = 0
      · simp [hn]
      · rw [if_neg hn, if_neg hn]
        by_cases has : as.isEmpty
        · have hbs : bs.isEmpty := by
            rw [List.isEmpty_iff] at has ⊢
            subst has
            exact List.eq_nil_of_length_eq_zero (by simpa using hab.symm)
          rw [if_pos has, if_pos hbs]
          rfl
        · have hbs : ¬ bs.isEmpty := by
            rw [List.isEmpty_iff] at has ⊢
            intro hb
            subst hb
            exact has (List.eq_nil_of_length_eq_zero (by simpa using hab))
          rw [if_neg has, if_neg hbs]
          have hpos : 0 < as.length := by
            rcases List.isEmpty_iff.not.mp has with h
            exact List.length_pos.mpr h
          simp only [List.length_cons]
          rw [ih (as.drop n) (bs.drop n) (by simp; omega) (by simp; omega)]
  exact key xs.length xs ys le_rfl hlen

/-- Zipping two equally long lists with a function of the first component
only is mapping over the first list. -/
theorem zipWith_left_map {α β γ : Type} (f : α → γ) :
    ∀ (as : List α) (bs : List β), as.length = bs.length →
      List.zipWith (fun a _ => f a) as bs = as.map f := by
  intro as
  induction as with
  | nil => intro bs h; rfl
  | cons a as ih =>
    intro bs h
    cases bs with
    | nil => simp at h
    | cons b bs =>
      simp only [List.zipWith_cons_cons, List.map_cons]
      rw [ih bs (by simpa using h)]

/-- Zipping two equally long lists with a function of the second component
only is mapping over the second list. -/
theorem zipWith_right_map {α β γ : Type} (f : β → γ) :
    ∀ (as : List α) (bs : List β), as.length = bs.length →
      List.zipWith (fun _ b => f b) as bs = bs.map f := by
  intro as
  induction as with
  | nil =>
    intro bs h
    rw [List.eq_nil_of_length_eq_zero h.symm]
    rfl
  | cons a as ih =>
    intro bs h
    cases bs with
    | nil => simp at h
    | cons b bs =>
      simp only [List.zipWith_cons_cons, List.map_cons]
      rw [ih bs (by simpa using h)]

/-- Projecting the data back out of the tensors built by `torchSplit0`
recovers the data chunks. -/
theorem torchSplit0_map_data (t : PGTensor) (s : ℕ) :
    (torchSplit0 t s).map PGTensor.data = chunkList (s * t.shape.tail.prod) t.data := by
  unfold torchSplit0
  rw [List.map_map]
  exact List.map_id _

/-- Defining equation of `RayPack.split` at a concrete chunk size. -/
theorem RayPackT.split_some (p : RayPackT) (s : ℕ) :
    p.split (some s) =
      if p.rays_ori.ndim = 2 ∧ p.rays_dir.ndim = 2 then
        Except.ok (List.zipWith
          (fun o d => { rays_ori := o, rays_dir := d })
          (torchSplit0 p.rays_ori s) (torchSplit0 p.rays_dir s))
      else Except.error "Only 1D ray packs can be split" := rfl

/-- C9: `RayPack.split` with a chunk size errors exactly when the pack is
not flat (origin or direction tensor not 2-dimensional); on a flat pack
whose ray tensors have the usual matching, non-degenerate shape it succeeds,
and the returned chunks partition the ray data along the leading axis into
pieces of at most the requested size. -/
theorem c9_ray_pack_split (p : RayPackT) (s : ℕ) :
    ((∃ e, p.split (some s) = Except.error e) ↔
        ¬(p.rays_ori.ndim = 2 ∧ p.rays_dir.ndim = 2)) ∧
    (p.rays_ori.ndim = 2 → p.rays_dir.ndim = 2 → s ≠ 0 →
      p.rays_ori.shape = p.rays_dir.shape →
      p.rays_ori.data.length = p.rays_dir.data.length →
      p.rays_ori.shape.tail.prod ≠ 0 →
      ∃ chunks, p.split (some s) = Except.ok chunks ∧
        (chunks.map (fun q => q.rays_ori.data)).flatten = p.rays_ori.data ∧
        (chunks.map (fun q => q.rays_dir.data)).flatten = p.rays_dir.data ∧
        ∀ q ∈ chunks, q.rays_ori.data.length ≤ s * p.rays_ori.shape.tail.prod) := by
  constructor
  · constructor
    · rintro ⟨e, he⟩ hflat
      rw [RayPackT.split_some, if_pos hflat] at he
      exact Except.noConfusion he
    · intro hflat
      refine ⟨"Only 1D ray packs can be split", ?_⟩
      rw [RayPackT.split_some, if_neg hflat]
  · intro h1 h2 hs hshape hlen hrow
    have hAB : (torchSplit0 p.rays_ori s).length = (torchSplit0 p.rays_dir s).length := by
      unfold torchSplit0
      simp only [List.length_map]
      rw [← hshape]
      exact chunkList_length_eq _ _ _ hlen
    have hn : s * p.rays_ori.shape.tail.prod ≠ 0 := Nat.mul_ne_zero hs hrow
    have hmapO : (List.zipWith (fun o d => ({ rays_ori := o, rays_dir := d } : RayPackT))
          (torchSplit0 p.rays_ori s) (torchSplit0 p.rays_dir s)).map
            (fun q => q.rays_ori.data) =
        chunkList (s * p.rays_ori.shape.tail.prod) p.rays_ori.data := by
      rw [List.map_zipWith]
      rw [zipWith_left_map PGTensor.data _ _ hAB]
      exact torchSplit0_map_data p.rays_ori s
    have hmapD : (List.zipWith (fun o d => ({ rays_ori := o, rays_dir := d } : RayPackT))
          (torchSplit0 p.rays_ori s) (torchSplit0 p.rays_dir s)).map
            (fun q => q.rays_dir.data) =
        chunkList (s * p.rays_ori.shape.tail.prod) p.rays_dir.data := by
      rw [List.map_zipWith]
      rw [zipWith_right_map PGTensor.data _ _ hAB]
      rw [torchSplit0_map_data p.rays_dir s, ← hshape]
    refine ⟨List.zipWith (fun o d => ({ rays_ori := o, rays_dir := d } : RayPackT))
        (torchSplit0 p.rays_ori s) (torchSplit0 p.rays_dir s),
      by rw [RayPackT.split_some, if_pos ⟨h1, h2⟩], ?_, ?_, ?_⟩
    · rw [hmapO]
      exact chunkList_flatten _ hn _
    · rw [hmapD]
      exact chunkList_flatten _ hn _
    · intro q hq
      have hmem : q.rays_ori.data ∈ chunkList (s * p.rays_ori.shape.tail.prod) p.rays_ori.data := by
        rw [← hmapO]
        exact List.mem_map_of_mem (fun q => q.rays_ori.data) hq
      exact chunkList_length_le _ _ _ hmem

/-- A concrete flat ray pack with four rays of three coordinates each. -/
def rayPackFlat : RayPackT :=
  { rays_ori := { shape := [4, 3], data := [0, 0, 0, 1, 0, 0, 2, 0, 0, 3, 0, 0] },
    rays_dir := { shape := [4, 3], data := [0, 0, 1, 0, 0, 1, 0, 0, 1, 0, 0, 1] } }

/-- C9 (witness): the concrete flat pack splits at chunk size 2 into pieces
whose data concatenates back to the original rays. -/
theorem c9_witness :
    rayPackFlat.rays_ori.ndim = 2 ∧
    ∃ chunks, rayPackFlat.split (some 2) = Except.ok chunks ∧
      (chunks.map (fun q => q.rays_ori.data)).flatten = rayPackFlat.rays_ori.data ∧
      (chunks.map (fun q => q.rays_dir.data)).flatten = rayPackFlat.rays_dir.data ∧
      ∀ q ∈ chunks, q.rays_ori.data.length ≤ 2 * rayPackFlat.rays_ori.shape.tail.prod :=
  ⟨by decide,
    (c9_ray_pack_split rayPackFlat 2).2 (by decide) (by decide) (by decide)
      (by decide) (by decide) (by decide)⟩

/-!  ## Claim C7 — mask zeroing after accumulation -/

/-- The displayed buffers of a render pass are the mask stage applied to the
denoise stage of the core result. -/
theorem renderPass_fst (ext : Ext) (st : EngineState) (camera : Camera)
    (isFirstPass : Bool) :
    (renderPass ext st camera isFirstPass).1 =
      maskStage (renderPassRays ext st camera isFirstPass).mask
        (denoiseStage ext
          (renderPassCore ext st (normalizeCameraDevice camera) isFirstPass
            (renderPassRays ext st camera isFirstPass)).2.useOptixDenoiser
          (renderPassCore ext st (normalizeCameraDevice camera) isFirstPass
            (renderPassRays ext st camera isFirstPass)).1) := rfl

/-- A masked row is zero at every index where the mask bit is set. -/
theorem maskRow_get (m : List Bool) (row : List ℚ) (i : ℕ)
    (h : i < (maskRow m row).length) (hm : m.getD i false = true) :
    (maskRow m row).get ⟨i, h⟩ = 0 := by
  have h2 := h
  rw [maskRow, List.length_zipWith, lt_min_iff] at h2
  have hmi : m[i] = true := by
    have h3 := hm
    rw [List.getD_eq_getElem?_getD, List.getElem?_eq_getElem h2.1] at h3
    simpa using h3
  rw [List.get_eq_getElem]
  simp only [maskRow]
  rw [List.getElem_zipWith]
  rw [hmi]
  rfl

/-- Every row of a masked image is zero wherever the mask bit is set. -/
theorem maskApplyI_mem_zero (m : List Bool) (img : Image) :
    ∀ row ∈ maskApplyI m img, ∀ i, ∀ h : i < row.length,
      m.getD i false = true → row.get ⟨i, h⟩ = 0 := by
  intro row hrow i h hm
  obtain ⟨r0, _, rfl⟩ := List.mem_map.mp hrow
  exact maskRow_get m r0 i h hm

/-- C7: whenever the rays generated for a pass carry a validity mask
(fisheye), every pixel the mask marks invalid is exactly zero in the
returned displayed rgb buffer, the noisy rgb_buffer cache, and the opacity
buffer; the mask stage runs after accumulation and denoising. -/
theorem c7_mask_zeroes (ext : Ext) (st : EngineState) (camera : Camera)
    (isFirstPass : Bool) (m : List Bool)
    (hm : (renderPassRays ext st camera isFirstPass).mask = some m) :
    (∀ row ∈ (renderPass ext st camera isFirstPass).1.rgb, ∀ i, ∀ h : i < row.length,
        m.getD i false = true → row.get ⟨i, h⟩ = 0) ∧
    (∀ row ∈ (renderPass ext st camera isFirstPass).1.rgbBuffer, ∀ i, ∀ h : i < row.length,
        m.getD i false = true → row.get ⟨i, h⟩ = 0) ∧
    (∀ row ∈ (renderPass ext st camera isFirstPass).1.opacity, ∀ i, ∀ h : i < row.length,
        m.getD i false = true → row.get ⟨i, h⟩ = 0) := by
  rw [renderPass_fst ext st camera isFirstPass, hm]
  exact ⟨maskApplyI_mem_zero m _, maskApplyI_mem_zero m _, maskApplyI_mem_zero m _⟩

/-- Concrete externals for exercising the fisheye mask: a denoiser that
spreads every row's sum across the row (so it reads masked pixels), an
identity `pow` (exact for gamma 1), and a fisheye generator whose mask
marks the second pixel invalid. -/
def extFisheye : Ext :=
  { mogTrace := fun _ _ => { predRgb := [[3, 5]], predOpacity := [[1, 1]] },
    renderPlayground := fun _ _ _ _ _ _ => { predRgb := [], predOpacity := [] },
    mogBackground := fun _ r o => (r, o),
    denoise := fun img => img.map (fun row => row.map (fun _ => row.foldl (· + ·) 0)),
    qpow := fun x _ => x,
    raygenPinhole := fun _ _ => { raysOri := [], raysDir := [], mask := none },
    raygenFisheye := fun _ _ => { raysOri := [0], raysDir := [0], mask := some [false, true] },
    sppJitter := fun k => k,
    dofSample := fun _ o d => (o, d) }

/-- An engine state with both progressive effects off, gamma 1, denoiser on,
a fisheye camera and no enabled primitives. -/
def stFisheye : EngineState :=
  { cameraType := CameraType.Fisheye, useDepthOfField := false, dofAcc := 0,
    dofSpp := 0, useSpp := false, sppAcc := 0, sppSpp := 0, sppBatch := 1,
    gammaCorrection := 1, useOptixDenoiser := true, frameId := 0,
    isMaterialsDirty := false, envmap := none,
    primitives := { primStateClean with enabled := false }, lastState := {} }

/-- A 1x2 CUDA camera. -/
def camFisheye : Camera :=
  { device := DevType.cuda, viewMatrix := [], height := 1, width := 2 }

/-- C7 (witness): on the concrete fisheye setup the mask is present and the
first pass's displayed rgb is zero at every masked index. -/
theorem c7_witness :
    (renderPassRays extFisheye stFisheye camFisheye true).mask = some [false, true] ∧
    ∀ row ∈ (renderPass extFisheye stFisheye camFisheye true).1.rgb,
      ∀ i, ∀ h : i < row.length,
        [false, true].getD i false = true → row.get ⟨i, h⟩ = 0 :=
  ⟨by decide,
    (c7_mask_zeroes extFisheye stFisheye camFisheye true [false, true] (by decide)).1⟩

/-!  ## Claim C8 — post-termination idempotence -/

/-- Defining equation of a masked row on cons cells. -/
theorem maskRow_cons (b : Bool) (bs : List Bool) (x : ℚ) (xs : List ℚ) :
    maskRow (b :: bs) (x :: xs) = (if b then 0 else x) :: maskRow bs xs := rfl

/-- Masking a row twice with the same mask is the same as masking once. -/
theorem maskRow_idem (m : List Bool) :
    ∀ row : List ℚ, maskRow m (maskRow m row) = maskRow m row := by
  induction m with
  | nil => intro row; rfl
  | cons b bs ih =>
    intro row
    cases row with
    | nil => rfl
    | cons x xs =>
      rw [maskRow_cons, maskRow_cons, ih]
      cases b <;> simp

/-- Masking an image twice with the same mask is the same as masking once. -/
theorem maskApplyI_idem (m : List Bool) (img : Image) :
    maskApplyI m (maskApplyI m img) = maskApplyI m img := by
  induction img with
  | nil => rfl
  | cons r rs ih =>
    simp only [maskApplyI, List.map_cons] at ih ⊢
    rw [maskRow_idem m r]
    exact congrArg _ ih

/-- Once the termination predicate is false, the accumulation branch of the
pass returns the cached noisy buffers and leaves the state untouched: with
depth of field on, its budget guard fails; otherwise antialiasing's guard
fails or antialiasing is off. -/
theorem renderPassCore_converged (ext : Ext) (st : EngineState) (camera : Camera)
    (rays : GenRays) (hp : hasProgressiveEffectsToRender st = false) :
    renderPassCore ext st camera false rays =
      ({ rgb := st.lastState.rgbBuffer, opacity := st.lastState.opacity }, st) := by
  have hp2 := hp
  unfold hasProgressiveEffectsToRender at hp2
  rw [Bool.or_eq_false_iff] at hp2
  obtain ⟨hpd, hps⟩ := hp2
  by_cases hdof : st.useDepthOfField = true
  · have hacc : ¬ st.dofAcc ≤ st.dofSpp := by
      rw [hdof, Bool.true_and] at hpd
      simpa using hpd
    simp [renderPassCore, renderDepthOfFieldBuffer, hdof, hacc]
  · have hdof2 : st.useDepthOfField = false := by simpa using hdof
    by_cases hspp : st.useSpp = true
    · have hacc : ¬ st.sppAcc ≤ st.sppSpp := by
        rw [hdof2] at hps
        simp only [Bool.not_false, Bool.true_and, hspp] at hps
        simpa using hps
      simp [renderPassCore, renderSppBuffer, hdof2, hspp, hacc]
    · have hspp2 : st.useSpp = false := by simpa using hspp
      simp [renderPassCore, hdof2, hspp2]

/-- Explicit form of a converged pass: it re-derives the displayed buffers
from the cached noisy buffer (denoise stage then mask stage) and re-caches
them, with all other state unchanged. -/
theorem renderPass_converged (ext : Ext) (st : EngineState) (camera : Camera)
    (hp : hasProgressiveEffectsToRender st = false) :
    renderPass ext st camera false =
      (maskStage (renderPassRays ext st camera false).mask
         (denoiseStage ext st.useOptixDenoiser
           { rgb := st.lastState.rgbBuffer, opacity := st.lastState.opacity }),
       cacheLastState st (normalizeCameraDevice camera)
         (maskStage (renderPassRays ext st camera false).mask
           (denoiseStage ext st.useOptixDenoiser
             { rgb := st.lastState.rgbBuffer, opacity := st.lastState.opacity }))
         [(normalizeCameraDevice camera).height, (normalizeCameraDevice camera).width]) := by
  simp only [renderPass]
  rw [renderPassCore_converged ext st (normalizeCameraDevice camera)
    (renderPassRays ext st camera false) hp]

/-- The cached noisy buffer is consistent with the mask the pass would use:
either no mask is generated, or re-masking the cached buffer changes
nothing.  Every cache written by a pass that used the same mask satisfies
this. -/
def maskConsistentCache (ext : Ext) (st : EngineState) (camera : Camera) : Prop :=
  ∀ m, (renderPassRays ext st camera false).mask = some m →
    maskApplyI m st.lastState.rgbBuffer = st.lastState.rgbBuffer

/-- Running the denoise-then-mask tail from an already mask-consistent noisy
buffer is stable. -/
theorem maskStage_denoise_stable (ext : Ext) (d : Bool) (mk : Option (List Bool))
    (B O : Image) (hm : ∀ m, mk = some m → maskApplyI m B = B) :
    maskStage mk (denoiseStage ext d
      { rgb := (maskStage mk (denoiseStage ext d { rgb := B, opacity := O })).rgbBuffer,
        opacity := (maskStage mk (denoiseStage ext d { rgb := B, opacity := O })).opacity }) =
    maskStage mk (denoiseStage ext d { rgb := B, opacity := O }) := by
  cases mk with
  | none => rfl
  | some m =>
    have hB : maskApplyI m B = B := hm m rfl
    simp only [maskStage, denoiseStage, hB, maskApplyI_idem]

/-- C8 (amended): once `has_progressive_effects_to_render()` is false, a
further `render_pass(camera, is_first_pass=False)` performs no accumulation
and rebuilds its output from the cached noisy buffer; whenever that cached
buffer is already consistent with the pass's mask — which holds for every
cache written under the same mask, and vacuously when no mask is present —
the next such call returns buffers identical to the previous one.  (The
first post-termination call may differ from the last accumulating pass when
a mask is present and the denoiser reads masked pixels, because the
previous pass denoised the noisy buffer before masking it.) -/
theorem c8_converged_pass_idempotent (ext : Ext) (st : EngineState) (camera : Camera)
    (hp : hasProgressiveEffectsToRender st = false)
    (hm : maskConsistentCache ext st camera) :
    (renderPass ext (renderPass ext st camera false).2 camera false).1 =
      (renderPass ext st camera false).1 := by
  rw [renderPass_converged ext st camera hp]
  dsimp only
  set cam := normalizeCameraDevice camera with hcam
  set rb1 := maskStage (renderPassRays ext st camera false).mask
    (denoiseStage ext st.useOptixDenoiser
      { rgb := st.lastState.rgbBuffer, opacity := st.lastState.opacity }) with hrb1
  have hp1 : hasProgressiveEffectsToRender
      (cacheLastState st cam rb1 [cam.height, cam.width]) = false := by
    simpa [hasProgressiveEffectsToRender, cacheLastState] using hp
  rw [renderPass_converged ext _ camera hp1]
  dsimp only
  have hrays : renderPassRays ext (cacheLastState st cam rb1 [cam.height, cam.width]) camera false =
      renderPassRays ext st camera false := by
    simp [renderPassRays, raygen, isUseSppFlag, cacheLastState]
  have h1 : (cacheLastState st cam rb1 [cam.height, cam.width]).useOptixDenoiser =
      st.useOptixDenoiser := rfl
  have h2 : (cacheLastState st cam rb1 [cam.height, cam.width]).lastState.rgbBuffer =
      rb1.rgbBuffer := rfl
  have h3 : (cacheLastState st cam rb1 [cam.height, cam.width]).lastState.opacity =
      rb1.opacity := rfl
  rw [hrays, h1, h2, h3, hrb1]
  exact maskStage_denoise_stable ext st.useOptixDenoiser
    (renderPassRays ext st camera false).mask
    st.lastState.rgbBuffer st.lastState.opacity hm

/-- An engine state that has terminated accumulation, with a pinhole camera
(no mask) and cached buffers present. -/
def stPinholeDone : EngineState :=
  { cameraType := CameraType.Pinhole, useDepthOfField := false, dofAcc := 0,
    dofSpp := 0, useSpp := true, sppAcc := 5, sppSpp := 4, sppBatch := 4,
    gammaCorrection := 1, useOptixDenoiser := true, frameId := 0,
    isMaterialsDirty := false, envmap := none,
    primitives := { primStateClean with enabled := false },
    lastState := { cameraVM := some [], rgb := [[2, 4]], rgbBuffer := [[2, 4]],
                   opacity := [[1, 1]], canvasSize := [1, 2] } }

/-- C8 (witness): on the concrete terminated pinhole state the predicate is
false and two consecutive converged passes return identical buffers. -/
theorem c8_witness :
    hasProgressiveEffectsToRender stPinholeDone = false ∧
    (renderPass extFisheye (renderPass extFisheye stPinholeDone camFisheye false).2
        camFisheye false).1 =
      (renderPass extFisheye stPinholeDone camFisheye false).1 :=
  ⟨by decide,
    c8_converged_pass_idempotent extFisheye stPinholeDone camFisheye (by decide)
      (by intro m hmm; exact Option.noConfusion hmm)⟩

/-- C8 (counterexample): with a fisheye mask and a denoiser that reads
masked pixels, after a first pass that terminates accumulation (both
progressive effects off), the very next `render_pass(is_first_pass=False)`
returns a displayed rgb buffer different from the previous pass's — the
claim's byte-identical guarantee fails at the transition into the converged
regime. -/
theorem c8_counterexample :
    hasProgressiveEffectsToRender (renderPass extFisheye stFisheye camFisheye true).2 = false ∧
    (renderPass extFisheye ((renderPass extFisheye stFisheye camFisheye true).2)
        camFisheye false).1.rgb ≠
      (renderPass extFisheye stFisheye camFisheye true).1.rgb := by
  constructor
  · decide
  · have h1 : (renderPass extFisheye stFisheye camFisheye true).1.rgb = [[8, 0]] := by
      norm_num [renderPass, renderPassRays, raygen, renderPassCore, denoiseStage, maskStage,
        cacheLastState, normalizeCameraDevice, isUseSppFlag, extFisheye, stFisheye, camFisheye,
        hasVisibleObjects, primStateClean, maskApplyI, maskRow, imap, batchMean, batchSum,
        List.range_succ, List.replicate_succ, List.replicate]
    have h2 : (renderPass extFisheye ((renderPass extFisheye stFisheye camFisheye true).2)
        camFisheye false).1.rgb = [[3, 0]] := by
      norm_num [renderPass, renderPassRays, raygen, renderPassCore, renderDepthOfFieldBuffer,
        renderSppBuffer, denoiseStage, maskStage,
        cacheLastState, normalizeCameraDevice, isUseSppFlag, extFisheye, stFisheye, camFisheye,
        hasVisibleObjects, primStateClean, maskApplyI, maskRow, imap, batchMean, batchSum,
        List.range_succ, List.replicate_succ, List.replicate]
    rw [h1, h2]
    norm_num

end Playground
